import Mathlib

/-!
# Verification of the ai-recipes-generator generation layer

A shallow embedding of the recipe-generation subsystem of the
`ai-recipes-generator` repository, together with proofs of the behavioural
claims made by its specification.

The frontend JavaScript that is present in the repository
(`frontend/src/services/api.js`, `frontend/src/components/RecipeGenerator.jsx`,
the `IngredientInput` and `RecipeCard` components) is embedded directly from
the source.  The backend orchestration layer (GeminiService, circuit breaker,
batch endpoint) is not part of the repository checkout — only its design
document `ASYNC_LLM_IMPLEMENTATION.md` and the specification describe it — so
those components are modelled from the spec, as flagged on each definition.

Strings are Lean `String`s; the case mapping of JavaScript
`String.prototype.toLowerCase`/`toUpperCase` is modelled on the ASCII range,
which is the alphabet all the embedded tables and inputs use.
-/

namespace AiRecipes

/-! ## ASCII case mapping and basic string utilities -/

/-- Model of JS `toLowerCase` on a single character (ASCII range). -/
def jsLowerChar (c : Char) : Char :=
  if 65 ≤ c.toNat ∧ c.toNat ≤ 90 then Char.ofNat (c.toNat + 32) else c

/-- Model of JS `toUpperCase` on a single character (ASCII range). -/
def jsUpperChar (c : Char) : Char :=
  if 97 ≤ c.toNat ∧ c.toNat ≤ 122 then Char.ofNat (c.toNat - 32) else c

/-- Model of JS `String.prototype.toLowerCase`. -/
def lowerStr (s : String) : String :=
  String.mk (s.data.map jsLowerChar)

/-- The whitespace characters recognised by the embedding of JS `trim`. -/
def isJsSpace (c : Char) : Bool :=
  c = ' ' || c = '\t' || c = '\n' || c = '\r'

/-- Drop leading and trailing whitespace from a character list. -/
def trimChars (cs : List Char) : List Char :=
  ((cs.dropWhile isJsSpace).reverse.dropWhile isJsSpace).reverse

/-- Model of JS `String.prototype.trim`. -/
def jsTrim (s : String) : String :=
  String.mk (trimChars s.data)

/-- `prefixOfChars needle hay` is true when `needle` is an initial segment of
`hay`. -/
def prefixOfChars : List Char → List Char → Bool
  | [], _ => true
  | _ :: _, [] => false
  | a :: as, b :: bs => a == b && prefixOfChars as bs

/-- `subChars needle hay` is true when `needle` occurs contiguously inside
`hay`; this is the model of JS `String.prototype.includes`. -/
def subChars (needle : List Char) : List Char → Bool
  | [] => needle.isEmpty
  | c :: cs => prefixOfChars needle (c :: cs) || subChars needle cs

/-- Model of JS `hay.includes(needle)`. -/
def strIncludes (hay needle : String) : Bool :=
  subChars needle.data hay.data

/-- The specification-side notion used to state claims about substring
matching: `needle` occurs contiguously inside `hay`. -/
def IsSubstringOf (needle hay : List Char) : Prop :=
  ∃ pre post, hay = pre ++ needle ++ post

/-! ## `IngredientInput.addIngredient` (frontend, `IngredientInput` component)

Embedded from the source:

```js
const addIngredient = (ingredient = inputValue) => {
  const trimmed = ingredient.trim();
  if (trimmed && !ingredients.includes(trimmed)) {
    onChange([...ingredients, trimmed]);
    ...
  }
};
```
-/

/-- One `addIngredient` interaction of the `IngredientInput` component: the
input is trimmed and appended unless it is empty or already present
(JS `Array.prototype.includes`, i.e. exact string equality). -/
def addIngredient (ingredients : List String) (input : String) : List String :=
  let trimmed := jsTrim input
  if trimmed ≠ "" ∧ trimmed ∉ ingredients then ingredients ++ [trimmed]
  else ingredients

/-! ## Dietary-conflict checking (frontend, `RecipeGenerator.jsx`) -/

/-- Forbidden-ingredient table for the `vegetarian` diet, verbatim from
`RecipeGenerator.jsx`. -/
def vegetarianForbidden : List String :=
  ["chicken", "beef", "pork", "lamb", "turkey", "duck", "fish", "salmon",
   "tuna", "shrimp", "crab", "lobster", "meat", "bacon", "ham", "sausage",
   "pepperoni"]

/-- Forbidden-ingredient table for the `vegan` diet, verbatim from
`RecipeGenerator.jsx`. -/
def veganForbidden : List String :=
  vegetarianForbidden ++ ["eggs", "milk", "cheese", "butter", "yogurt", "cream"]

/-- Forbidden-ingredient table for the `gluten-free` diet, verbatim from
`RecipeGenerator.jsx`. -/
def glutenFreeForbidden : List String :=
  ["wheat", "barley", "rye", "flour", "bread", "pasta", "noodles", "soy sauce"]

/-- Forbidden-ingredient table for the `dairy-free` diet, verbatim from
`RecipeGenerator.jsx`. -/
def dairyFreeForbidden : List String :=
  ["milk", "cheese", "butter", "yogurt", "cream", "ice cream"]

/-- The `dietaryRestrictions` lookup object of `RecipeGenerator.jsx`, keyed by
the lower-cased diet name. -/
def dietaryRestrictions (diet : String) : Option (List String) :=
  if diet = "vegetarian" then some vegetarianForbidden
  else if diet = "vegan" then some veganForbidden
  else if diet = "gluten-free" then some glutenFreeForbidden
  else if diet = "dairy-free" then some dairyFreeForbidden
  else none

/-- `forbiddenIngredients.some(forbidden =>
ingredient.toLowerCase().includes(forbidden.toLowerCase()))` from
`checkDietaryConflicts`. -/
def ingredientConflicts (forbidden : List String) (ingredient : String) : Bool :=
  forbidden.any (fun f => strIncludes (lowerStr ingredient) (lowerStr f))

/-- The ingredients of `ingredients` that conflict with `diet`, as filtered by
`checkDietaryConflicts` for a single dietary preference. -/
def conflictingIngredients (diet : String) (ingredients : List String) :
    List String :=
  match dietaryRestrictions (lowerStr diet) with
  | none => []
  | some forbidden => ingredients.filter (fun ing => ingredientConflicts forbidden ing)

/-- The `checkDietaryConflicts` function of `RecipeGenerator.jsx`: for each
selected dietary preference with a known restriction table, report the
conflicting ingredients (omitting diets with no conflicts). -/
def checkDietaryConflicts (dietaryPreferences ingredients : List String) :
    List (String × List String) :=
  dietaryPreferences.filterMap (fun diet =>
    match dietaryRestrictions (lowerStr diet) with
    | none => none
    | some forbidden =>
      let cs := ingredients.filter (fun ing => ingredientConflicts forbidden ing)
      if cs ≠ [] then some (diet, cs) else none)

/-! ## Recipe cleaning (frontend, `api.js` `cleanRecipeData`) -/

/-- The difficulty names accepted by `cleanRecipeData`. -/
def validDifficulties : List String := ["Easy", "Medium", "Hard", "Expert"]

/-- `diff.charAt(0).toUpperCase() + diff.slice(1).toLowerCase()` from
`cleanRecipeData`. -/
def capitalizeJS (s : String) : String :=
  match s.data with
  | [] => ""
  | c :: cs => String.mk (jsUpperChar c :: cs.map jsLowerChar)

/-- The difficulty-normalisation block of `cleanRecipeData`.  A missing field
(`none`) or empty string is replaced by `"Medium"` before normalisation,
mirroring `recipe.difficulty || 'Medium'`. -/
def cleanDifficulty (difficulty : Option String) : String :=
  let diff := match difficulty with
    | none => "Medium"
    | some s => if s = "" then "Medium" else s
  let normalized := capitalizeJS diff
  if normalized ∈ validDifficulties then normalized else "Medium"

/-- The possible shapes of the `instructions` field reaching
`cleanRecipeData`: a plain string, a list of steps, or absent. -/
inductive InstrField where
  | strVal (s : String)
  | listVal (l : List String)
  | missing
  deriving DecidableEq, Repr

/-- Split a character list on a separator character, keeping empty segments,
as JS `String.prototype.split` does with a single-character separator. -/
def splitOnChar (sep : Char) : List Char → List (List Char)
  | [] => [[]]
  | c :: cs =>
    let rest := splitOnChar sep cs
    if c = sep then [] :: rest
    else
      match rest with
      | [] => [[c]]
      | g :: gs => (c :: g) :: gs

/-- The instruction-handling part of `cleanRecipeData`: a missing field becomes
`[]` (`recipe.instructions || []`, which also captures the empty string, a JS
falsy value), a list is kept unchanged, and a non-empty string is split on
newlines, trimmed, and cleared of empty steps. -/
def cleanInstructions : InstrField → List String
  | .missing => []
  | .listVal l => l
  | .strVal s =>
    if s = "" then []
    else ((splitOnChar '\n' s.data).map (fun line => String.mk (trimChars line))).filter
      (fun step => step ≠ "")

/-! ## `RecipeCard.formatInstructions` (frontend, `RecipeCard` component)

The string branch splits legacy single-string instructions with the regex
`/(?:\d+\.\s*|\.\s+(?=[A-Z]))/` — a numbered marker, or a sentence boundary
whose following letter is upper case (a lookahead, so the letter is not
consumed) — then drops blank pieces and trims each step.
-/

/-- Is `c` an ASCII digit? -/
def isDigitChar (c : Char) : Bool := '0' ≤ c && c ≤ '9'

/-- Is `c` an ASCII upper-case letter? -/
def isUpperAZ (c : Char) : Bool := 'A' ≤ c && c ≤ 'Z'

/-- First alternative of the split regex: `\d+\.\s*`.  Returns the number of
consumed characters when it matches at the head of the list. -/
def fiAlt1 (cs : List Char) : Option Nat :=
  let ds := cs.takeWhile isDigitChar
  if ds.isEmpty then none
  else
    match cs.drop ds.length with
    | '.' :: rest => some (ds.length + 1 + (rest.takeWhile isJsSpace).length)
    | _ => none

/-- Second alternative of the split regex: `\.\s+(?=[A-Z])`.  The capital
letter is a lookahead and is not consumed. -/
def fiAlt2 (cs : List Char) : Option Nat :=
  match cs with
  | '.' :: rest =>
    let ws := rest.takeWhile isJsSpace
    if ws.isEmpty then none
    else
      match rest.drop ws.length with
      | c :: _ => if isUpperAZ c then some (1 + ws.length) else none
      | [] => none
  | _ => none

/-- A match of the split regex at the head of `cs` (alternatives tried in
order, as JS regex alternation does). -/
def fiMatchAt (cs : List Char) : Option Nat :=
  (fiAlt1 cs).orElse (fun _ => fiAlt2 cs)

/-- Split a character list at every match of the instruction-marker regex,
scanning left to right as JS `String.prototype.split` does.  The recursion is
made structural through an explicit fuel argument; every scanning step
consumes at least one character, so `fiSplit` below supplies enough fuel for
the exhaustion branch never to be reached. -/
def fiSplitFuel : Nat → List Char → List Char → List (List Char)
  | 0, cs, acc => [acc.reverse ++ cs]
  | _ + 1, [], acc => [acc.reverse]
  | fuel + 1, c :: rest, acc =>
    match fiMatchAt (c :: rest) with
    | some n => acc.reverse :: fiSplitFuel fuel (rest.drop (n - 1)) []
    | none => fiSplitFuel fuel rest (c :: acc)

/-- Split a character list at every match of the instruction-marker regex. -/
def fiSplit (cs acc : List Char) : List (List Char) :=
  fiSplitFuel (cs.length + 1) cs acc

/-- The ordered step sequence produced by the string branch of
`formatInstructions` before the display numbering is prepended: split on the
marker regex, drop blank pieces, trim each step. -/
def formatInstructionsSteps (s : String) : List String :=
  (((fiSplit s.data []).map (fun cs => String.mk cs)).filter
    (fun step => jsTrim step ≠ "")).map (fun step => jsTrim step)

/-! ## `retryRequest` (frontend, `api.js`)

```js
const MAX_RETRIES = 3;
const retryRequest = async (requestFn, retries = MAX_RETRIES) => {
  try {
    return await requestFn();
  } catch (error) {
    if (retries > 0 && (error.code === 'ECONNABORTED' || error.response?.status >= 500)) {
      await new Promise(resolve => setTimeout(resolve, RETRY_DELAY));
      return retryRequest(requestFn, retries - 1);
    }
    throw error;
  }
}
```

`recipeAPI.generateRecipes` wraps its POST to `/api/recipes/generate` in
`retryRequest`, so each invocation of the generation client goes through this
loop.
-/

/-- Outcome of one underlying HTTP request attempt. -/
inductive ReqOutcome where
  | success
  /-- Axios timeout / aborted connection (`error.code === 'ECONNABORTED'`). -/
  | econnaborted
  /-- A response was received with this HTTP status (`error.response.status`). -/
  | httpStatus (status : Nat)
  /-- Any other failure (no retryable signature). -/
  | otherError
  deriving DecidableEq, Repr

/-- The retry condition of `retryRequest` (apart from the retry budget):
`error.code === 'ECONNABORTED' || error.response?.status >= 500`. -/
def isRetryable : ReqOutcome → Bool
  | .econnaborted => true
  | .httpStatus n => 500 ≤ n
  | _ => false

/-- `MAX_RETRIES` from `api.js`. -/
def maxRetries : Nat := 3

/-- `retryRequest` itself, over an environment `outcomes` giving the result of
the `attempt`-th underlying request.  Returns the total number of underlying
requests issued and the final outcome delivered to the caller.  With an
exhausted budget the single attempt's outcome is returned as is, which
coincides with the JS control flow (a success returns the value, anything
else is rethrown once `retries` is 0). -/
def retryRequestCalls (outcomes : Nat → ReqOutcome) : Nat → Nat → Nat × ReqOutcome
  | attempt, 0 => (1, outcomes attempt)
  | attempt, r + 1 =>
    match outcomes attempt with
    | .success => (1, .success)
    | err =>
      if isRetryable err then
        let rest := retryRequestCalls outcomes (attempt + 1) r
        (rest.1 + 1, rest.2)
      else (1, err)

/-- Number of outbound calls issued by one invocation of
`recipeAPI.generateRecipes` (which calls `retryRequest` with the default
budget `MAX_RETRIES`). -/
def generateRecipesCallCount (outcomes : Nat → ReqOutcome) : Nat :=
  (retryRequestCalls outcomes 0 maxRetries).1

/-! ## Backend data model

The backend orchestration layer is not part of the repository checkout; the
definitions below are modelled from the specification (and the code snippets
of `ASYNC_LLM_IMPLEMENTATION.md` where they exist).
-/

/-- Modelled from the spec: the error taxonomy of §7 of the specification. -/
inductive GenError where
  | validation
  | admissionTimeout
  | network
  | provider
  | timedOut
  | parseFailed
  | circuitOpen
  | batchTooLarge
  deriving DecidableEq, Repr

/-- Modelled from the spec: the `source` discriminator of a
`GenerationResult`. -/
inductive ResultSource where
  | Provider
  | Fallback
  deriving DecidableEq, Repr

/-- Modelled from the spec: a structured recipe record (`RecipeRecord`,
§3 of the specification). -/
structure RecipeRecord where
  title : String
  description : Option String := none
  ingredientNames : List String := []
  instructions : List String
  is_fallback : Bool
  deriving DecidableEq, Repr

/-- Modelled from the spec: the result envelope of one logical generation
request (`GenerationResult`, §3). -/
structure GenerationResult where
  recipes : List RecipeRecord
  source : ResultSource
  error : Option GenError
  deriving DecidableEq, Repr

/-- Modelled from the spec: a raw provider record before validation by the
response parser; `title` and `instructions` may be absent. -/
structure RawRecord where
  title : Option String
  instructions : Option (List String)
  deriving DecidableEq, Repr

/-- Modelled from the spec: the per-record validation of the response parser —
`title` and `instructions` are mandatory, a record failing these checks is
dropped, not emitted (§4.4). -/
def validateRecord (r : RawRecord) : Option RecipeRecord :=
  match r.title, r.instructions with
  | some t, some steps => some { title := t, instructions := steps, is_fallback := false }
  | _, _ => none

/-- Modelled from the spec: the record-level stage of `ResponseParser.parse` —
missing-field records are dropped and the output is capped at 3 records even
if more are present (§4.4). -/
def parseRecords (raws : List RawRecord) : List RecipeRecord :=
  (raws.filterMap validateRecord).take 3

/-! ## Circuit breaker -/

/-- Modelled from the spec: the circuit-breaker state values (§3). -/
inductive CircuitState where
  | Closed
  | Open
  | HalfOpen
  deriving DecidableEq, Repr

/-- Modelled from the spec: the circuit-breaker state record — current state,
rolling consecutive-failure counter, and the time the breaker last opened
(`CircuitBreaker(failure_threshold=3, recovery_timeout=30)` in
`ASYNC_LLM_IMPLEMENTATION.md`). -/
structure CircuitBreaker where
  state : CircuitState
  failureCount : Nat
  openedAt : Nat
  deriving DecidableEq, Repr

/-- Modelled from the spec: the default failure threshold *F* (3 consecutive
failures). -/
def failureThreshold : Nat := 3

/-- Modelled from the spec: the cool-down period in milliseconds (30s). -/
def recoveryTimeout : Nat := 30000

/-- Modelled from the spec: `CircuitBreaker.beforeCall` — while `Open`, calls
are rejected until the cool-down has elapsed, at which point the breaker moves
to `HalfOpen` and permits one trial call.  Returns the updated breaker and
whether the call is allowed. -/
def beforeCall (b : CircuitBreaker) (now : Nat) : CircuitBreaker × Bool :=
  match b.state with
  | .Open =>
    if b.openedAt + recoveryTimeout ≤ now then ({ b with state := .HalfOpen }, true)
    else (b, false)
  | _ => (b, true)

/-- Modelled from the spec: `CircuitBreaker.onSuccess` — a single success
closes the breaker and resets the consecutive-failure counter. -/
def onSuccess (b : CircuitBreaker) : CircuitBreaker :=
  { b with state := .Closed, failureCount := 0 }

/-- Modelled from the spec: `CircuitBreaker.onFailure` — any failure in
`HalfOpen` re-opens the breaker; in `Closed` the consecutive-failure counter
is incremented and the breaker opens when it reaches the threshold. -/
def onFailure (b : CircuitBreaker) (now : Nat) : CircuitBreaker :=
  match b.state with
  | .HalfOpen => { b with state := .Open, failureCount := b.failureCount + 1, openedAt := now }
  | .Closed =>
    let f := b.failureCount + 1
    if failureThreshold ≤ f then { b with state := .Open, failureCount := f, openedAt := now }
    else { b with failureCount := f }
  | .Open => { b with failureCount := b.failureCount + 1 }

/-- Modelled from the spec: one guarded provider call seen from the breaker —
the `beforeCall` gate followed, when the call is admitted, by `onSuccess` or
`onFailure` according to the call outcome. -/
def breakerStep (b : CircuitBreaker) (now : Nat) (callSucceeds : Bool) :
    CircuitBreaker :=
  let gate := beforeCall b now
  if gate.2 then (if callSucceeds then onSuccess gate.1 else onFailure gate.1 now)
  else gate.1

/-- The transitions the specification permits for the circuit-breaker state
machine (staying in the same state is not a transition). -/
def allowedTransition : CircuitState → CircuitState → Bool
  | .Closed, .Open => true
  | .Open, .HalfOpen => true
  | .HalfOpen, .Closed => true
  | .HalfOpen, .Open => true
  | s, t => decide (s = t)

/-! ## Fallback catalog -/

/-- Modelled from the spec: a static always-available recipe record of the
fallback catalog. -/
def fallbackPasta : RecipeRecord :=
  { title := "Simple Pasta"
    description := some "A reliable pantry staple."
    ingredientNames := ["pasta", "olive oil", "garlic", "salt"]
    instructions := ["Boil the pasta until al dente.", "Toss with olive oil and garlic."]
    is_fallback := true }

/-- Modelled from the spec: a static always-available recipe record of the
fallback catalog. -/
def fallbackStirFry : RecipeRecord :=
  { title := "Vegetable Stir Fry"
    description := some "Quick vegetables over high heat."
    ingredientNames := ["carrots", "bell peppers", "soy sauce", "rice"]
    instructions := ["Chop the vegetables.", "Stir-fry and serve over rice."]
    is_fallback := true }

/-- Modelled from the spec: a static always-available recipe record of the
fallback catalog. -/
def fallbackOmelette : RecipeRecord :=
  { title := "Herb Omelette"
    description := some "Eggs with fresh herbs."
    ingredientNames := ["eggs", "butter", "basil", "salt"]
    instructions := ["Whisk the eggs.", "Cook in butter and fold with herbs."]
    is_fallback := true }

/-- Modelled from the spec: the small static set held by the fallback
catalog (§4.5). -/
def fallbackCatalog : List RecipeRecord :=
  [fallbackPasta, fallbackStirFry, fallbackOmelette]

/-- Modelled from the spec: the generation request payload
(`GenerationRequest`, §3). -/
structure GenerationRequest where
  ingredients : List String
  dietary_preferences : List String := []
  cuisine_type : Option String := none
  meal_type : Option String := none
  deriving DecidableEq, Repr

/-- Modelled from the spec: does a catalog record violate one dietary
preference, using the same best-effort substring match against the
forbidden-ingredient table that the frontend uses (§4.5, Design Notes)? -/
def recipeViolatesDiet (rec : RecipeRecord) (diet : String) : Bool :=
  match dietaryRestrictions (lowerStr diet) with
  | none => false
  | some forbidden => rec.ingredientNames.any (fun ing => ingredientConflicts forbidden ing)

/-- Modelled from the spec: `FallbackCatalog.select` — filter the static set
against the dietary preferences where feasible, cap at 3, and always return at
least one record (§4.5). -/
def fallbackSelect (r : GenerationRequest) : List RecipeRecord :=
  let ok := fallbackCatalog.filter
    (fun rec => !(r.dietary_preferences.any (fun d => recipeViolatesDiet rec d)))
  if ok.isEmpty then [fallbackPasta] else ok.take 3

/-! ## Request orchestrator -/

/-- Modelled from the spec: request validation at step 1 of
`RequestOrchestrator.generate` — `ingredients` is required with 1..30 items
(per the repository's `API_VALIDATION_GUIDE.md`). -/
def validateRequest (r : GenerationRequest) : Bool :=
  decide (1 ≤ r.ingredients.length) && decide (r.ingredients.length ≤ 30)

/-- Modelled from the spec: the outcome of the single `GenerationClient.call`
a request would perform if admitted. -/
inductive CallOutcome where
  | ok (raw : List RawRecord)
  | networkError
  | providerError
  | timeoutError
  deriving DecidableEq, Repr

/-- Modelled from the spec: the per-request execution environment — breaker
snapshot, current time, whether admission is granted within the admission
timeout, and the provider-call outcome. -/
structure OrchestratorEnv where
  breaker : CircuitBreaker
  now : Nat
  admissionGranted : Bool
  callOutcome : CallOutcome
  deriving DecidableEq, Repr

/-- Modelled from the spec: a `Fallback`-sourced result envelope carrying the
originating failure for observability (§4.6 step 5). -/
def fallbackResult (r : GenerationRequest) (e : Option GenError) :
    GenerationResult :=
  { recipes := fallbackSelect r, source := .Fallback, error := e }

/-- Modelled from the spec: `RequestOrchestrator.generate` (§4.6).  Invalid
requests fail fast with `ValidationError`; a circuit rejection, admission
timeout, provider failure, or parse failure is absorbed and converted into a
`Fallback`-sourced result carrying the error; a parsed response with at least
one record is returned as `Provider`-sourced. -/
def generate (env : OrchestratorEnv) (r : GenerationRequest) :
    Except GenError GenerationResult :=
  if validateRequest r = false then .error .validation
  else
    let gate := beforeCall env.breaker env.now
    if gate.2 = false then .ok (fallbackResult r (some .circuitOpen))
    else if env.admissionGranted = false then
      .ok (fallbackResult r (some .admissionTimeout))
    else
      match env.callOutcome with
      | .ok raw =>
        let recs := parseRecords raw
        if recs.isEmpty then .ok (fallbackResult r (some .parseFailed))
        else .ok { recipes := recs, source := .Provider, error := none }
      | .networkError => .ok (fallbackResult r (some .network))
      | .providerError => .ok (fallbackResult r (some .provider))
      | .timeoutError => .ok (fallbackResult r (some .timedOut))

/-! ## Batch orchestrator -/

/-- Modelled from the spec: `max_batch_size` (default 5). -/
def maxBatch : Nat := 5

/-- Modelled from the spec: one batch slot — `asyncio.gather(*tasks,
return_exceptions=True)` runs each request independently and the aggregation
loop of `generate_multiple_recipes` replaces a request that raised with a
fallback, leaving sibling results untouched. -/
def generateOneOrFallback (env : OrchestratorEnv) (r : GenerationRequest) :
    GenerationResult :=
  match generate env r with
  | .ok res => res
  | .error e => fallbackResult r (some e)

/-- Modelled from the spec: `BatchOrchestrator.generateMany` (§4.7) /
`generate_recipes_batch` in `ASYNC_LLM_IMPLEMENTATION.md` — reject oversized
batches with `BatchTooLargeError` before any sub-orchestration, otherwise run
every request and aggregate the results in input order. -/
def generateMany (envs : List OrchestratorEnv) (requests : List GenerationRequest) :
    Except GenError (List GenerationResult) :=
  if maxBatch < requests.length then .error .batchTooLarge
  else .ok (List.zipWith generateOneOrFallback envs requests)

/-! ## Helper lemmas -/

theorem toNat_ofNat_of_lt {n : Nat} (h : n < 55296) : (Char.ofNat n).toNat = n := by
  rw [Char.ofNat, dif_pos (Or.inl h)]
  rfl

theorem jsUpperChar_jsLowerChar (c : Char) :
    jsUpperChar (jsLowerChar c) = jsUpperChar c := by
  by_cases h : 65 ≤ c.toNat ∧ c.toNat ≤ 90
  · have hv : (Char.ofNat (c.toNat + 32)).toNat = c.toNat + 32 :=
      toNat_ofNat_of_lt (by omega)
    simp only [jsLowerChar, jsUpperChar, if_pos h, hv]
    rw [if_pos (by omega), if_neg (by omega)]
    have he : c.toNat + 32 - 32 = c.toNat := by omega
    rw [he, Char.ofNat_toNat]
  · simp only [jsLowerChar, if_neg h]

theorem jsLowerChar_jsLowerChar (c : Char) :
    jsLowerChar (jsLowerChar c) = jsLowerChar c := by
  by_cases h : 65 ≤ c.toNat ∧ c.toNat ≤ 90
  · have hv : (Char.ofNat (c.toNat + 32)).toNat = c.toNat + 32 :=
      toNat_ofNat_of_lt (by omega)
    simp only [jsLowerChar, if_pos h, hv]
    rw [if_neg (by omega)]
  · simp only [jsLowerChar, if_neg h]

theorem capitalizeJS_lowerStr (s : String) :
    capitalizeJS (lowerStr s) = capitalizeJS s := by
  have hdata : (lowerStr s).data = s.data.map jsLowerChar := rfl
  rcases hds : s.data with _ | ⟨c, cs⟩
  · simp [capitalizeJS, hdata, hds]
  · simp only [capitalizeJS, hdata, hds, List.map_cons]
    rw [jsUpperChar_jsLowerChar, List.map_map]
    congr 2
    exact List.map_congr_left (fun a _ => jsLowerChar_jsLowerChar a)

theorem cleanDifficulty_mem (d : Option String) :
    cleanDifficulty d ∈ validDifficulties := by
  dsimp only [cleanDifficulty]
  split
  · exact ‹_›
  · decide

theorem cleanDifficulty_of_lower (s t : String) (h : lowerStr s = t)
    (h1 : capitalizeJS t ∈ validDifficulties) (h2 : s ≠ "") :
    cleanDifficulty (some s) = capitalizeJS t := by
  have hc : capitalizeJS s = capitalizeJS t := by
    rw [← capitalizeJS_lowerStr s, h]
  simp only [cleanDifficulty, if_neg h2, hc, if_pos h1]

theorem lowerStr_ne_empty {s t : String} (h : lowerStr s = t) (ht : t ≠ "") :
    s ≠ "" := by
  intro he
  rw [he] at h
  exact ht (h.symm ▸ rfl)

theorem retryRequestCalls_bounds (f : Nat → ReqOutcome) :
    ∀ r a, 1 ≤ (retryRequestCalls f a r).1 ∧ (retryRequestCalls f a r).1 ≤ r + 1 := by
  intro r
  induction r with
  | zero =>
    intro a
    simp [retryRequestCalls]
  | succ n ih =>
    intro a
    have hb := ih (a + 1)
    cases hfa : f a with
    | success => simp [retryRequestCalls, hfa]
    | econnaborted =>
      simp [retryRequestCalls, hfa, isRetryable]
      omega
    | httpStatus k =>
      by_cases hk : 500 ≤ k
      · simp [retryRequestCalls, hfa, isRetryable, hk]
        omega
      · simp [retryRequestCalls, hfa, isRetryable, hk]
    | otherError =>
      simp [retryRequestCalls, hfa, isRetryable]

/-- Claim C3: the specification asserts that the generation-client layer
issues exactly one outbound call per invocation and never re-attempts a
failing or timed-out call.  The repository's client layer
(`recipeAPI.generateRecipes` wrapping `retryRequest` in `api.js`) refutes
this at a concrete input: when every underlying request times out
(`ECONNABORTED`), one invocation issues 4 outbound calls, not 1. -/
theorem generateRecipes_retries_counterexample :
    generateRecipesCallCount (fun _ => ReqOutcome.econnaborted) = 4 ∧
    generateRecipesCallCount (fun _ => ReqOutcome.econnaborted) ≠ 1 := by
  constructor <;> decide

/-- Claim C3 (amended): each invocation of `retryRequest` issues between 1 and
`retries + 1` underlying calls; a successful call is never re-attempted, an
error that is neither a timeout (`ECONNABORTED`) nor an HTTP status ≥ 500 is
rethrown after a single call, and `recipeAPI.generateRecipes` — which wraps
its POST in `retryRequest` with the default budget `MAX_RETRIES = 3` — issues
at most `1 + MAX_RETRIES = 4` outbound calls per invocation. -/
theorem retryRequest_spec :
    (∀ f a r, 1 ≤ (retryRequestCalls f a r).1 ∧ (retryRequestCalls f a r).1 ≤ r + 1) ∧
    (∀ f a r, f a = ReqOutcome.success → retryRequestCalls f a r = (1, ReqOutcome.success)) ∧
    (∀ f a r, isRetryable (f a) = false → (retryRequestCalls f a r).1 = 1) ∧
    (∀ f, generateRecipesCallCount f ≤ 1 + maxRetries) := by
  refine ⟨fun f a r => retryRequestCalls_bounds f r a, ?_, ?_, ?_⟩
  · intro f a r h
    cases r <;> simp [retryRequestCalls, h]
  · intro f a r h
    cases hfa : f a with
    | success => cases r <;> simp [retryRequestCalls, hfa]
    | econnaborted => rw [hfa] at h; exact absurd h (by decide)
    | httpStatus k =>
      rw [hfa] at h
      cases r with
      | zero => simp [retryRequestCalls, hfa]
      | succ n =>
        simp only [retryRequestCalls, hfa]
        rw [if_neg (by simp_all [isRetryable])]
    | otherError =>
      cases r <;> simp [retryRequestCalls, hfa, isRetryable]
  · intro f
    have hb := retryRequestCalls_bounds f maxRetries 0
    simpa [generateRecipesCallCount, maxRetries] using hb.2

/-- Claim C3 (amended) witness. -/
theorem retryRequest_spec_witness :
    (1 ≤ (retryRequestCalls (fun _ => ReqOutcome.otherError) 0 3).1 ∧
      (retryRequestCalls (fun _ => ReqOutcome.otherError) 0 3).1 ≤ 4) ∧
    retryRequestCalls (fun _ => ReqOutcome.success) 0 3 = (1, ReqOutcome.success) ∧
    (retryRequestCalls (fun _ => ReqOutcome.httpStatus 404) 0 3).1 = 1 ∧
    generateRecipesCallCount (fun _ => ReqOutcome.httpStatus 503) ≤ 1 + maxRetries := by
  refine ⟨retryRequest_spec.1 (fun _ => ReqOutcome.otherError) 0 3, ?_, ?_, ?_⟩
  · exact retryRequest_spec.2.1 (fun _ => ReqOutcome.success) 0 3 rfl
  · exact retryRequest_spec.2.2.1 (fun _ => ReqOutcome.httpStatus 404) 0 3 (by decide)
  · exact retryRequest_spec.2.2.2 (fun _ => ReqOutcome.httpStatus 503)

/-- Claim C7: the specification asserts the ingredients list is deduplicated
case-insensitively — adding an ingredient already present under any letter
casing leaves the list unchanged.  `addIngredient` in the `IngredientInput`
component refutes this at a concrete input: with `"tomato"` present, adding
`"Tomato"` appends a second entry instead of leaving the list unchanged. -/
theorem addIngredient_case_counterexample :
    addIngredient ["tomato"] "Tomato" = ["tomato", "Tomato"] ∧
    addIngredient ["tomato"] "Tomato" ≠ ["tomato"] := by
  constructor <;> decide

/-- Claim C7 (amended): `addIngredient` deduplicates case-sensitively on the
exact trimmed string — adding an ingredient whose exact trimmed name is
already in the list (or whose trimmed form is empty) leaves the list
unchanged, while any other input, including a different letter casing of a
present ingredient, is appended; the component enforces no 30-item bound (the
list always grows by one on a successful add, e.g. from 30 to 31 entries),
and the list may be empty. -/
theorem addIngredient_spec :
    (∀ l s, jsTrim s ∈ l → addIngredient l s = l) ∧
    (∀ l s, jsTrim s = "" → addIngredient l s = l) ∧
    (∀ l s, jsTrim s ≠ "" → jsTrim s ∉ l →
      addIngredient l s = l ++ [jsTrim s] ∧
      (addIngredient l s).length = l.length + 1) := by
  refine ⟨?_, ?_, ?_⟩
  · intro l s h
    simp [addIngredient, h]
  · intro l s h
    simp [addIngredient, h]
  · intro l s h1 h2
    have he : addIngredient l s = l ++ [jsTrim s] := by
      simp [addIngredient, h1, h2]
    exact ⟨he, by simp [he]⟩

/-- Claim C7 (amended) witness: an exact duplicate is ignored, a blank input
is ignored, and a fresh ingredient is appended (growing a 2-element list to
3; the same instance shows the length is not clamped). -/
theorem addIngredient_spec_witness :
    addIngredient ["tomato"] "tomato" = ["tomato"] ∧
    addIngredient ["tomato"] "   " = ["tomato"] ∧
    addIngredient ["tomato", "rice"] "  chicken  " = ["tomato", "rice", "chicken"] := by
  refine ⟨?_, ?_, ?_⟩
  · exact addIngredient_spec.1 ["tomato"] "tomato" (by decide)
  · exact addIngredient_spec.2.1 ["tomato"] "   " (by decide)
  · have h := (addIngredient_spec.2.2 ["tomato", "rice"] "  chicken  " (by decide)
      (by decide)).1
    rw [h]
    decide

/-- Claim C10: every record returned by `cleanRecipeData` carries a difficulty
drawn from Easy, Medium, Hard, Expert: any letter casing of a valid
difficulty name is normalised to its capitalised form
(`charAt(0).toUpperCase() + slice(1).toLowerCase()`), and a missing, empty,
or unrecognised value maps to Medium. -/
theorem cleanDifficulty_spec :
    (∀ d, cleanDifficulty d ∈ validDifficulties) ∧
    cleanDifficulty none = "Medium" ∧
    cleanDifficulty (some "") = "Medium" ∧
    (∀ s, lowerStr s = "easy" → cleanDifficulty (some s) = "Easy") ∧
    (∀ s, lowerStr s = "medium" → cleanDifficulty (some s) = "Medium") ∧
    (∀ s, lowerStr s = "hard" → cleanDifficulty (some s) = "Hard") ∧
    (∀ s, lowerStr s = "expert" → cleanDifficulty (some s) = "Expert") ∧
    (∀ s, capitalizeJS s ∉ validDifficulties → cleanDifficulty (some s) = "Medium") := by
  refine ⟨cleanDifficulty_mem, by decide, by decide, ?_, ?_, ?_, ?_, ?_⟩
  · intro s h
    have := cleanDifficulty_of_lower s "easy" h (by decide)
      (lowerStr_ne_empty h (by decide))
    simpa using this
  · intro s h
    have := cleanDifficulty_of_lower s "medium" h (by decide)
      (lowerStr_ne_empty h (by decide))
    simpa using this
  · intro s h
    have := cleanDifficulty_of_lower s "hard" h (by decide)
      (lowerStr_ne_empty h (by decide))
    simpa using this
  · intro s h
    have := cleanDifficulty_of_lower s "expert" h (by decide)
      (lowerStr_ne_empty h (by decide))
    simpa using this
  · intro s h
    by_cases he : s = ""
    · subst he; decide
    · simp only [cleanDifficulty, if_neg he, if_neg h]

theorem prefixOfChars_iff (needle : List Char) :
    ∀ hay, prefixOfChars needle hay = true ↔ ∃ post, hay = needle ++ post := by
  induction needle with
  | nil =>
    intro hay
    simp [prefixOfChars]
  | cons a as ih =>
    intro hay
    cases hay with
    | nil =>
      simp [prefixOfChars]
    | cons b bs =>
      simp only [prefixOfChars, Bool.and_eq_true, beq_iff_eq, ih, List.cons_append]
      constructor
      · rintro ⟨rfl, post, rfl⟩
        exact ⟨post, rfl⟩
      · rintro ⟨post, hp⟩
        injection hp with h1 h2
        exact ⟨h1.symm, post, h2⟩

theorem subChars_iff (needle : List Char) :
    ∀ hay, subChars needle hay = true ↔ IsSubstringOf needle hay := by
  unfold IsSubstringOf
  intro hay
  induction hay with
  | nil =>
    simp only [subChars, List.isEmpty_iff]
    constructor
    · rintro rfl
      exact ⟨[], [], rfl⟩
    · rintro ⟨pre, post, h⟩
      rcases List.append_eq_nil.mp h.symm with ⟨h1, h2⟩
      exact (List.append_eq_nil.mp h1).2
  | cons c cs ih =>
    simp only [subChars, Bool.or_eq_true, ih, prefixOfChars_iff]
    constructor
    · rintro (⟨post, h⟩ | ⟨pre, post, h⟩)
      · exact ⟨[], post, by simpa using h⟩
      · exact ⟨c :: pre, post, by simp [h]⟩
    · rintro ⟨pre, post, h⟩
      cases pre with
      | nil =>
        left
        exact ⟨post, by simpa using h⟩
      | cons p ps =>
        right
        rw [List.cons_append, List.cons_append] at h
        injection h with h1 h2
        exact ⟨ps, post, h2⟩

/-- Claim C8: an ingredient is flagged as conflicting with a dietary
preference exactly when some entry of that diet's forbidden-ingredient table
occurs as a case-insensitive substring of the ingredient string; in
particular `"butternut squash"` is reported as conflicting with a dairy-free
diet because the table entry `"butter"` is a substring of it — the matching
over-filters. -/
theorem dietaryConflict_iff :
    (∀ diet forbidden ings ing,
      dietaryRestrictions (lowerStr diet) = some forbidden →
      (ing ∈ conflictingIngredients diet ings ↔
        ing ∈ ings ∧ ∃ f ∈ forbidden, IsSubstringOf (lowerStr f).data (lowerStr ing).data)) ∧
    "butternut squash" ∈ conflictingIngredients "Dairy-Free" ["butternut squash"] ∧
    checkDietaryConflicts ["Dairy-Free"] ["butternut squash"] =
      [("Dairy-Free", ["butternut squash"])] := by
  refine ⟨?_, by decide, by decide⟩
  intro diet forbidden ings ing h
  simp only [conflictingIngredients, h, List.mem_filter, ingredientConflicts,
    List.any_eq_true, strIncludes, subChars_iff]

/-- Claim C8 witness: the characterisation applied at the dairy-free table and
the over-filtered ingredient `"butternut squash"` (matched via `"butter"`). -/
theorem dietaryConflict_iff_witness :
    "butternut squash" ∈ conflictingIngredients "Dairy-Free" ["butternut squash"] ↔
      "butternut squash" ∈ (["butternut squash"] : List String) ∧
      ∃ f ∈ dairyFreeForbidden,
        IsSubstringOf (lowerStr f).data (lowerStr "butternut squash").data := by
  exact dietaryConflict_iff.1 "Dairy-Free" dairyFreeForbidden
    ["butternut squash"] "butternut squash" (by decide)

/-- Claim C9: a recipe whose `instructions` field arrives as a single string
is split by the cleaning/formatting code into an ordered sequence of
non-empty steps — `cleanRecipeData` splits on newlines (the result is the
sequence of non-blank trimmed lines, in order), `formatInstructions` splits
legacy strings on numbered markers/sentence boundaries and likewise drops
blank pieces — while an `instructions` field that is already a list is kept
unchanged as the ordered step sequence. -/
theorem instructions_split_spec :
    (∀ l, cleanInstructions (.listVal l) = l) ∧
    (∀ s, List.Sublist (cleanInstructions (.strVal s))
      ((splitOnChar '\n' s.data).map (fun line => String.mk (trimChars line)))) ∧
    (∀ s step, step ∈ cleanInstructions (.strVal s) → step ≠ "") ∧
    (∀ s step, step ∈ formatInstructionsSteps s → step ≠ "") := by
  refine ⟨fun l => rfl, ?_, ?_, ?_⟩
  · intro s
    by_cases he : s = ""
    · simp [cleanInstructions, he]
    · simp only [cleanInstructions, if_neg he]
      exact List.filter_sublist _
  · intro s step h
    by_cases he : s = ""
    · simp [cleanInstructions, he] at h
    · simp only [cleanInstructions, if_neg he, List.mem_filter] at h
      simpa using h.2
  · intro s step h
    simp only [formatInstructionsSteps, List.mem_map, List.mem_filter] at h
    obtain ⟨t, ⟨_, ht⟩, rfl⟩ := h
    simpa using ht

/-- Claim C9 witness: a newline-separated string with blank and padded lines
is cleaned into the non-empty trimmed steps in order; a numbered legacy
string is split at its markers; a list is kept as is. -/
theorem instructions_split_spec_witness :
    cleanInstructions (.listVal ["Mix.", "Bake."]) = ["Mix.", "Bake."] ∧
    cleanInstructions (.strVal "Step one\n\n  Step two  \nStep three") =
      ["Step one", "Step two", "Step three"] ∧
    List.Sublist (cleanInstructions (.strVal "Step one\n\n  Step two  \nStep three"))
      ((splitOnChar '\n' ("Step one\n\n  Step two  \nStep three").data).map
        (fun line => String.mk (trimChars line))) ∧
    formatInstructionsSteps "1. Boil water. 2. Add pasta and stir." =
      ["Boil water.", "Add pasta and stir."] ∧
    ("Step two" : String) ≠ "" := by
  refine ⟨instructions_split_spec.1 ["Mix.", "Bake."], by decide, ?_, by decide, ?_⟩
  · exact instructions_split_spec.2.1 "Step one\n\n  Step two  \nStep three"
  · exact instructions_split_spec.2.2.1 "Step one\n\n  Step two  \nStep three"
      "Step two" (by decide)

theorem fallbackSelect_ne_nil (r : GenerationRequest) : fallbackSelect r ≠ [] := by
  simp only [fallbackSelect]
  split
  · simp
  · rename_i hne
    intro h
    rcases List.take_eq_nil_iff.mp h with h3 | h0
    · exact absurd h3 (by decide)
    · rw [h0] at hne
      simp at hne

theorem fallbackSelect_le_three (r : GenerationRequest) :
    (fallbackSelect r).length ≤ 3 := by
  simp only [fallbackSelect]
  split
  · simp
  · exact le_trans (List.length_take_le 3 _) (le_refl 3)

theorem parseRecords_le_three (raws : List RawRecord) :
    (parseRecords raws).length ≤ 3 := by
  simp only [parseRecords, List.length_take]
  omega

theorem generate_error_elim (env : OrchestratorEnv) (r : GenerationRequest)
    (e : GenError) (h : generate env r = Except.error e) :
    validateRequest r = false ∧ e = GenError.validation := by
  simp only [generate] at h
  by_cases h1 : validateRequest r = false
  · rw [if_pos h1] at h
    injection h with h2
    exact ⟨h1, h2.symm⟩
  · rw [if_neg h1] at h
    exfalso
    by_cases h2 : (beforeCall env.breaker env.now).2 = false
    · rw [if_pos h2] at h
      exact Except.noConfusion h
    · rw [if_neg h2] at h
      by_cases h3 : env.admissionGranted = false
      · rw [if_pos h3] at h
        exact Except.noConfusion h
      · rw [if_neg h3] at h
        cases ho : env.callOutcome with
        | ok raw =>
          simp only [ho] at h
          by_cases h4 : (parseRecords raw).isEmpty = true
          · rw [if_pos h4] at h
            exact Except.noConfusion h
          · rw [if_neg h4] at h
            exact Except.noConfusion h
        | networkError => simp only [ho] at h; exact Except.noConfusion h
        | providerError => simp only [ho] at h; exact Except.noConfusion h
        | timeoutError => simp only [ho] at h; exact Except.noConfusion h

theorem generate_ok_shape (env : OrchestratorEnv) (r : GenerationRequest)
    (res : GenerationResult) (h : generate env r = Except.ok res) :
    (∃ e, res = fallbackResult r e) ∨
    (∃ raw, env.callOutcome = CallOutcome.ok raw ∧
      res = ⟨parseRecords raw, ResultSource.Provider, none⟩) := by
  simp only [generate] at h
  by_cases h1 : validateRequest r = false
  · rw [if_pos h1] at h
    exact Except.noConfusion h
  · rw [if_neg h1] at h
    by_cases h2 : (beforeCall env.breaker env.now).2 = false
    · rw [if_pos h2] at h
      injection h with h'
      exact .inl ⟨_, h'.symm⟩
    · rw [if_neg h2] at h
      by_cases h3 : env.admissionGranted = false
      · rw [if_pos h3] at h
        injection h with h'
        exact .inl ⟨_, h'.symm⟩
      · rw [if_neg h3] at h
        cases ho : env.callOutcome with
        | ok raw =>
          simp only [ho] at h
          by_cases h4 : (parseRecords raw).isEmpty = true
          · rw [if_pos h4] at h
            injection h with h'
            exact .inl ⟨_, h'.symm⟩
          · rw [if_neg h4] at h
            injection h with h'
            exact .inr ⟨raw, rfl, h'.symm⟩
        | networkError =>
          simp only [ho] at h
          injection h with h'
          exact .inl ⟨_, h'.symm⟩
        | providerError =>
          simp only [ho] at h
          injection h with h'
          exact .inl ⟨_, h'.symm⟩
        | timeoutError =>
          simp only [ho] at h
          injection h with h'
          exact .inl ⟨_, h'.symm⟩

theorem generateMany_error_elim (envs : List OrchestratorEnv)
    (rs : List GenerationRequest) (e : GenError)
    (h : generateMany envs rs = Except.error e) : e = GenError.batchTooLarge := by
  simp only [generateMany] at h
  by_cases hl : maxBatch < rs.length
  · rw [if_pos hl] at h
    injection h with h'
    exact h'.symm
  · rw [if_neg hl] at h
    exact Except.noConfusion h

theorem zipWith_getElem?_some {α β γ : Type} (f : α → β → γ) :
    ∀ (as : List α) (bs : List β) (i : Nat) (a : α) (b : β),
      as[i]? = some a → bs[i]? = some b →
      (List.zipWith f as bs)[i]? = some (f a b) := by
  intro as
  induction as with
  | nil =>
    intro bs i a b ha
    simp at ha
  | cons x xs ih =>
    intro bs i a b ha hb
    cases bs with
    | nil => simp at hb
    | cons y ys =>
      cases i with
      | zero =>
        simp only [List.getElem?_cons_zero, Option.some.injEq] at ha hb
        simp [List.zipWith, ha, hb]
      | succ n =>
        simp only [List.getElem?_cons_succ] at ha hb
        simpa [List.zipWith] using ih ys n a b ha hb

/-- Claim C4: the circuit-breaker state machine makes only the transitions
Closed→Open (when the consecutive-failure counter reaches the threshold
F = 3), Open→HalfOpen (only once the cool-down has elapsed), HalfOpen→Closed
(on a single success), and HalfOpen→Open (on any failure); every state change
produced by any `beforeCall`/`onSuccess`/`onFailure` event — and hence by any
sequence of guarded calls — is one of these four (or leaves the state
unchanged). -/
theorem circuitBreaker_transitions :
    (∀ b now, allowedTransition b.state (beforeCall b now).1.state = true) ∧
    (∀ b now, (beforeCall b now).1.state ≠ b.state →
      b.state = CircuitState.Open ∧
      (beforeCall b now).1.state = CircuitState.HalfOpen ∧
      b.openedAt + recoveryTimeout ≤ now) ∧
    (∀ b now, b.state = CircuitState.Open → now < b.openedAt + recoveryTimeout →
      beforeCall b now = (b, false)) ∧
    (∀ b now, (beforeCall b now).2 = true →
      (beforeCall b now).1.state ≠ CircuitState.Open) ∧
    (∀ b, (onSuccess b).state = CircuitState.Closed ∧ (onSuccess b).failureCount = 0) ∧
    (∀ b now, b.state = CircuitState.HalfOpen →
      (onFailure b now).state = CircuitState.Open) ∧
    (∀ b now, b.state = CircuitState.Closed →
      ((onFailure b now).state = CircuitState.Open ↔
        failureThreshold ≤ b.failureCount + 1)) ∧
    (∀ b now succ,
      allowedTransition (beforeCall b now).1.state (breakerStep b now succ).state = true) ∧
    failureThreshold = 3 := by
  refine ⟨?_, ?_, ?_, ?_, ?_, ?_, ?_, ?_, rfl⟩
  · rintro ⟨st, f, t⟩ now
    cases st with
    | Closed => simp [beforeCall, allowedTransition]
    | HalfOpen => simp [beforeCall, allowedTransition]
    | Open =>
      by_cases h : t + recoveryTimeout ≤ now
      · simp [beforeCall, h, allowedTransition]
      · simp [beforeCall, h, allowedTransition]
  · rintro ⟨st, f, t⟩ now hne
    cases st with
    | Closed => exact absurd rfl hne
    | HalfOpen => exact absurd rfl hne
    | Open =>
      by_cases h : t + recoveryTimeout ≤ now
      · exact ⟨rfl, by simp [beforeCall, h], h⟩
      · exact absurd (by simp [beforeCall, h]) hne
  · rintro ⟨st, f, t⟩ now hst hlt
    cases hst
    simp only [beforeCall]
    rw [if_neg (Nat.not_le.mpr hlt)]
  · rintro ⟨st, f, t⟩ now hall
    cases st with
    | Closed => simp [beforeCall]
    | HalfOpen => simp [beforeCall]
    | Open =>
      by_cases h : t + recoveryTimeout ≤ now
      · simp [beforeCall, h]
      · simp [beforeCall, h] at hall
  · intro b
    exact ⟨rfl, rfl⟩
  · rintro ⟨st, f, t⟩ now hst
    cases hst
    rfl
  · rintro ⟨st, f, t⟩ now hst
    cases hst
    simp only [onFailure]
    by_cases h : failureThreshold ≤ f + 1
    · rw [if_pos h]
      simpa using h
    · rw [if_neg h]
      constructor
      · intro hc
        exact absurd hc (by simp)
      · intro hc
        exact absurd hc h
  · rintro ⟨st, f, t⟩ now succ
    cases st with
    | Closed =>
      cases succ with
      | true => simp [breakerStep, beforeCall, onSuccess, allowedTransition]
      | false =>
        by_cases h : failureThreshold ≤ f + 1
        · simp [breakerStep, beforeCall, onFailure, h, allowedTransition]
        · simp [breakerStep, beforeCall, onFailure, h, allowedTransition]
    | HalfOpen =>
      cases succ with
      | true => simp [breakerStep, beforeCall, onSuccess, allowedTransition]
      | false => simp [breakerStep, beforeCall, onFailure, allowedTransition]
    | Open =>
      by_cases h : t + recoveryTimeout ≤ now
      · cases succ with
        | true => simp [breakerStep, beforeCall, h, onSuccess, allowedTransition]
        | false => simp [breakerStep, beforeCall, h, onFailure, allowedTransition]
      · simp [breakerStep, beforeCall, h, allowedTransition]

/-- Claim C4 witness: an open breaker inside the cool-down rejects without a
state change, the cooled-down breaker moves to HalfOpen, a half-open breaker
re-opens on failure, a closed breaker at 2 prior consecutive failures opens on
the third, and an admitted call never sees an `Open` state. -/
theorem circuitBreaker_transitions_witness :
    beforeCall ⟨CircuitState.Open, 3, 0⟩ 100 = (⟨CircuitState.Open, 3, 0⟩, false) ∧
    (CircuitState.Open = CircuitState.Open ∧
      (beforeCall ⟨CircuitState.Open, 3, 0⟩ 30000).1.state = CircuitState.HalfOpen ∧
      0 + recoveryTimeout ≤ 30000) ∧
    (onFailure ⟨CircuitState.HalfOpen, 0, 50⟩ 75).state = CircuitState.Open ∧
    ((onFailure ⟨CircuitState.Closed, 2, 0⟩ 10).state = CircuitState.Open ↔
      failureThreshold ≤ 2 + 1) ∧
    (beforeCall ⟨CircuitState.Closed, 0, 0⟩ 5).1.state ≠ CircuitState.Open := by
  refine ⟨?_, ?_, ?_, ?_, ?_⟩
  · exact circuitBreaker_transitions.2.2.1 ⟨CircuitState.Open, 3, 0⟩ 100 rfl (by decide)
  · exact circuitBreaker_transitions.2.1 ⟨CircuitState.Open, 3, 0⟩ 30000 (by decide)
  · exact circuitBreaker_transitions.2.2.2.2.2.1 ⟨CircuitState.HalfOpen, 0, 50⟩ 75 rfl
  · exact circuitBreaker_transitions.2.2.2.2.2.2.1 ⟨CircuitState.Closed, 2, 0⟩ 10 rfl
  · exact circuitBreaker_transitions.2.2.2.1 ⟨CircuitState.Closed, 0, 0⟩ 5 (by decide)

/-- Claim C1: for every valid request, `generate` never surfaces a hard
failure — a circuit rejection, admission timeout, or provider-side failure
(network error, provider error, timeout, parse failure) is absorbed and
converted into a `Fallback`-sourced, non-empty `GenerationResult` carrying
the originating error; the only hard error `generate` can return is
`ValidationError`, and the only hard error `generateMany` can return is
`BatchTooLargeError`. -/
theorem generate_error_policy :
    (∀ env r, validateRequest r = true → ∃ res, generate env r = Except.ok res) ∧
    (∀ env r, validateRequest r = true →
      (beforeCall env.breaker env.now).2 = true →
      env.admissionGranted = true →
      (env.callOutcome = CallOutcome.networkError →
        generate env r = Except.ok (fallbackResult r (some GenError.network))) ∧
      (env.callOutcome = CallOutcome.providerError →
        generate env r = Except.ok (fallbackResult r (some GenError.provider))) ∧
      (env.callOutcome = CallOutcome.timeoutError →
        generate env r = Except.ok (fallbackResult r (some GenError.timedOut))) ∧
      (∀ raw, env.callOutcome = CallOutcome.ok raw → (parseRecords raw).isEmpty = true →
        generate env r = Except.ok (fallbackResult r (some GenError.parseFailed)))) ∧
    (∀ r e, (fallbackResult r (some e)).source = ResultSource.Fallback ∧
      (fallbackResult r (some e)).error = some e ∧
      (fallbackResult r (some e)).recipes ≠ []) ∧
    (∀ env r e, generate env r = Except.error e → e = GenError.validation) ∧
    (∀ envs rs e, generateMany envs rs = Except.error e → e = GenError.batchTooLarge) := by
  have hval : ∀ (r : GenerationRequest), validateRequest r = true →
      ¬(validateRequest r = false) := by
    intro r hv hf
    rw [hv] at hf
    exact Bool.noConfusion hf
  refine ⟨?_, ?_, ?_, fun env r e h => (generate_error_elim env r e h).2,
    generateMany_error_elim⟩
  · intro env r hv
    cases hg : generate env r with
    | error e =>
      exact absurd (generate_error_elim env r e hg).1 (hval r hv)
    | ok res => exact ⟨res, rfl⟩
  · intro env r hv hgate hadm
    have h1 : ¬(validateRequest r = false) := hval r hv
    have h2 : ¬((beforeCall env.breaker env.now).2 = false) := by
      rw [hgate]; exact Bool.noConfusion
    have h3 : ¬(env.admissionGranted = false) := by
      rw [hadm]; exact Bool.noConfusion
    refine ⟨?_, ?_, ?_, ?_⟩
    · intro ho
      simp only [generate, if_neg h1, if_neg h2, if_neg h3, ho]
    · intro ho
      simp only [generate, if_neg h1, if_neg h2, if_neg h3, ho]
    · intro ho
      simp only [generate, if_neg h1, if_neg h2, if_neg h3, ho]
    · intro raw ho hp
      simp only [generate, if_neg h1, if_neg h2, if_neg h3, ho, if_pos hp]
  · intro r e
    exact ⟨rfl, rfl, fallbackSelect_ne_nil r⟩

/-- Claim C1 witness: the §8 scenario — ingredients `["chicken", "rice"]`,
provider unreachable — yields an `ok` fallback result carrying
`NetworkError`; an invalid (empty-ingredients) request is the validation hard
failure. -/
theorem generate_error_policy_witness :
    generate ⟨⟨CircuitState.Closed, 0, 0⟩, 0, true, CallOutcome.networkError⟩
        ⟨["chicken", "rice"], [], none, none⟩ =
      Except.ok (fallbackResult ⟨["chicken", "rice"], [], none, none⟩
        (some GenError.network)) ∧
    (∃ res, generate ⟨⟨CircuitState.Closed, 0, 0⟩, 0, true, CallOutcome.networkError⟩
        ⟨["chicken", "rice"], [], none, none⟩ = Except.ok res) ∧
    (fallbackResult ⟨["chicken", "rice"], [], none, none⟩ (some GenError.network)).recipes ≠ [] ∧
    GenError.validation = GenError.validation ∧
    GenError.batchTooLarge = GenError.batchTooLarge := by
  refine ⟨?_, ?_, ?_, ?_, ?_⟩
  · exact (generate_error_policy.2.1
      ⟨⟨CircuitState.Closed, 0, 0⟩, 0, true, CallOutcome.networkError⟩
      ⟨["chicken", "rice"], [], none, none⟩ (by decide) (by decide) rfl).1 rfl
  · exact generate_error_policy.1
      ⟨⟨CircuitState.Closed, 0, 0⟩, 0, true, CallOutcome.networkError⟩
      ⟨["chicken", "rice"], [], none, none⟩ (by decide)
  · exact (generate_error_policy.2.2.1 ⟨["chicken", "rice"], [], none, none⟩
      GenError.network).2.2
  · exact generate_error_policy.2.2.2.1
      ⟨⟨CircuitState.Closed, 0, 0⟩, 0, true, CallOutcome.networkError⟩
      ⟨[], [], none, none⟩ GenError.validation rfl
  · exact generate_error_policy.2.2.2.2 [] (List.replicate 6 ⟨["rice"], [], none, none⟩)
      GenError.batchTooLarge rfl

/-- Claim C2: one generation yields at most 3 recipe records — the parser
caps its output at 3 even when more raw records are present, the fallback
selection is likewise capped, and hence every result `generate` returns has
`recipes.length ≤ 3`. -/
theorem generation_recipes_le_three :
    (∀ raws, (parseRecords raws).length ≤ 3) ∧
    (∀ r, (fallbackSelect r).length ≤ 3) ∧
    (∀ env r res, generate env r = Except.ok res → res.recipes.length ≤ 3) := by
  refine ⟨parseRecords_le_three, fallbackSelect_le_three, ?_⟩
  intro env r res h
  rcases generate_ok_shape env r res h with ⟨e, rfl⟩ | ⟨raw, _, rfl⟩
  · exact fallbackSelect_le_three r
  · exact parseRecords_le_three raw

/-- Claim C2 witness: five raw records are parsed down to three, and the two
result shapes of `generate` (provider-backed and fallback) are both within
the cap at concrete inputs. -/
theorem generation_recipes_le_three_witness :
    (parseRecords [⟨some "a", some ["s"]⟩, ⟨some "b", some ["s"]⟩, ⟨some "c", some ["s"]⟩,
      ⟨some "d", some ["s"]⟩, ⟨some "e", some ["s"]⟩]).length ≤ 3 ∧
    (fallbackSelect ⟨["rice"], [], none, none⟩).length ≤ 3 ∧
    (fallbackResult ⟨["rice"], [], none, none⟩ (some GenError.circuitOpen)).recipes.length ≤ 3 := by
  refine ⟨?_, ?_, ?_⟩
  · exact generation_recipes_le_three.1 [⟨some "a", some ["s"]⟩, ⟨some "b", some ["s"]⟩,
      ⟨some "c", some ["s"]⟩, ⟨some "d", some ["s"]⟩, ⟨some "e", some ["s"]⟩]
  · exact generation_recipes_le_three.2.1 ⟨["rice"], [], none, none⟩
  · exact generation_recipes_le_three.2.2
      ⟨⟨CircuitState.Open, 3, 0⟩, 0, true, CallOutcome.networkError⟩
      ⟨["rice"], [], none, none⟩
      (fallbackResult ⟨["rice"], [], none, none⟩ (some GenError.circuitOpen))
      rfl

/-- Claim C5: a batch whose length exceeds `maxBatch = 5` is rejected with
`BatchTooLargeError`, and no sub-orchestration is invoked — the rejection is
identical for every environment (no per-request generation can influence or
be influenced by it). -/
theorem generateMany_tooLarge :
    ∀ envs envsB requests, maxBatch < requests.length →
      generateMany envs requests = Except.error GenError.batchTooLarge ∧
      generateMany envs requests = generateMany envsB requests := by
  intro envs envsB requests h
  constructor
  · simp [generateMany, if_pos h]
  · simp [generateMany, if_pos h]

/-- Claim C5 witness: a 6-request batch is rejected regardless of the
environments supplied. -/
theorem generateMany_tooLarge_witness :
    generateMany [] (List.replicate 6 ⟨["rice"], [], none, none⟩) =
      Except.error GenError.batchTooLarge ∧
    generateMany [] (List.replicate 6 ⟨["rice"], [], none, none⟩) =
      generateMany [⟨⟨CircuitState.Closed, 0, 0⟩, 0, true, CallOutcome.networkError⟩]
        (List.replicate 6 ⟨["rice"], [], none, none⟩) := by
  exact generateMany_tooLarge []
    [⟨⟨CircuitState.Closed, 0, 0⟩, 0, true, CallOutcome.networkError⟩]
    (List.replicate 6 ⟨["rice"], [], none, none⟩) (by decide)

/-- Claim C6: a batch of N ≤ `maxBatch` requests yields exactly N results in
input order regardless of completion order — the i-th result is a function of
the i-th request and its private environment alone — and each request's
failure is isolated: a request whose generation fails hard is replaced by a
fallback result for that slot without affecting any sibling slot. -/
theorem generateMany_order_isolation :
    (∀ envs requests, envs.length = requests.length → requests.length ≤ maxBatch →
      ∃ results, generateMany envs requests = Except.ok results ∧
        results.length = requests.length ∧
        (∀ (i : Nat) env req, envs[i]? = some env → requests[i]? = some req →
          results[i]? = some (generateOneOrFallback env req))) ∧
    (∀ env req e, generate env req = Except.error e →
      generateOneOrFallback env req = fallbackResult req (some e)) ∧
    (∀ env req res, generate env req = Except.ok res →
      generateOneOrFallback env req = res) := by
  refine ⟨?_, ?_, ?_⟩
  · intro envs requests hlen hle
    refine ⟨List.zipWith generateOneOrFallback envs requests, ?_, ?_, ?_⟩
    · simp [generateMany, Nat.not_lt.mpr hle]
    · simp [List.length_zipWith, hlen]
    · intro i env req ha hb
      exact zipWith_getElem?_some generateOneOrFallback envs requests i env req ha hb
  · intro env req e h
    simp [generateOneOrFallback, h]
  · intro env req res h
    simp [generateOneOrFallback, h]

/-- Claim C6 witness: a 2-request batch (one healthy request, one invalid
request that fails hard) returns exactly 2 results in order; slot 0 is the
healthy request's own result and slot 1 is the invalid request's fallback —
the failure does not leak into slot 0. -/
theorem generateMany_order_isolation_witness :
    (∃ results : List GenerationResult,
      generateMany
        [⟨⟨CircuitState.Closed, 0, 0⟩, 0, true, CallOutcome.networkError⟩,
         ⟨⟨CircuitState.Closed, 0, 0⟩, 0, true, CallOutcome.networkError⟩]
        [⟨["chicken", "rice"], [], none, none⟩, ⟨[], [], none, none⟩] =
        Except.ok results ∧
      results.length = 2 ∧
      (∀ (i : Nat) env req,
        ([⟨⟨CircuitState.Closed, 0, 0⟩, 0, true, CallOutcome.networkError⟩,
          ⟨⟨CircuitState.Closed, 0, 0⟩, 0, true, CallOutcome.networkError⟩] :
            List OrchestratorEnv)[i]? = some env →
        ([⟨["chicken", "rice"], [], none, none⟩, ⟨[], [], none, none⟩] :
            List GenerationRequest)[i]? = some req →
        results[i]? = some (generateOneOrFallback env req))) ∧
    generateOneOrFallback ⟨⟨CircuitState.Closed, 0, 0⟩, 0, true, CallOutcome.networkError⟩
        ⟨[], [], none, none⟩ =
      fallbackResult ⟨[], [], none, none⟩ (some GenError.validation) ∧
    generateOneOrFallback ⟨⟨CircuitState.Closed, 0, 0⟩, 0, true, CallOutcome.networkError⟩
        ⟨["chicken", "rice"], [], none, none⟩ =
      fallbackResult ⟨["chicken", "rice"], [], none, none⟩ (some GenError.network) := by
  refine ⟨?_, ?_, ?_⟩
  · exact generateMany_order_isolation.1
      [⟨⟨CircuitState.Closed, 0, 0⟩, 0, true, CallOutcome.networkError⟩,
       ⟨⟨CircuitState.Closed, 0, 0⟩, 0, true, CallOutcome.networkError⟩]
      [⟨["chicken", "rice"], [], none, none⟩, ⟨[], [], none, none⟩]
      rfl (by decide)
  · exact generateMany_order_isolation.2.1
      ⟨⟨CircuitState.Closed, 0, 0⟩, 0, true, CallOutcome.networkError⟩
      ⟨[], [], none, none⟩ GenError.validation rfl
  · exact generateMany_order_isolation.2.2
      ⟨⟨CircuitState.Closed, 0, 0⟩, 0, true, CallOutcome.networkError⟩
      ⟨["chicken", "rice"], [], none, none⟩
      (fallbackResult ⟨["chicken", "rice"], [], none, none⟩ (some GenError.network))
      rfl

/-- Claim C10 witness: concrete casings and an unrecognised value. -/
theorem cleanDifficulty_spec_witness :
    cleanDifficulty (some "EASY") = "Easy" ∧
    cleanDifficulty (some "mEdIuM") = "Medium" ∧
    cleanDifficulty (some "hard") = "Hard" ∧
    cleanDifficulty (some "eXPERT") = "Expert" ∧
    cleanDifficulty (some "banana") = "Medium" ∧
    cleanDifficulty (some "Easy") ∈ validDifficulties := by
  refine ⟨?_, ?_, ?_, ?_, ?_, ?_⟩
  · exact cleanDifficulty_spec.2.2.2.1 "EASY" (by decide)
  · exact cleanDifficulty_spec.2.2.2.2.1 "mEdIuM" (by decide)
  · exact cleanDifficulty_spec.2.2.2.2.2.1 "hard" (by decide)
  · exact cleanDifficulty_spec.2.2.2.2.2.2.1 "eXPERT" (by decide)
  · exact cleanDifficulty_spec.2.2.2.2.2.2.2 "banana" (by decide)
  · exact cleanDifficulty_spec.1 (some "Easy")

end AiRecipes
